import Mathlib

/-!
Verification development for the dispersive-susceptibility slice of an FDTD
solver (src/susceptibility.cpp).  The per-grid-point recurrences, branch
dispatch, allocation predicates and checkpoint records are shallowly embedded
over exact real arithmetic; grid arrays become functions from indices to reals
and nullable C pointers become `Option` values.
-/

noncomputable section

/-- Parameters of a `lorentzian_susceptibility` object: resonance frequency
`omega_0`, damping `gamma`, and the `no_omega_0_denominator` policy flag.
The time step `dt` is passed separately, as in `update_P`. -/
structure LorentzParams where
  omega_0 : ℝ
  gamma : ℝ
  no_omega_0_denominator : Bool

/-- `g2pi = gamma * 2 * pi` from `lorentzian_susceptibility::update_P`. -/
def g2pi (L : LorentzParams) : ℝ := L.gamma * 2 * Real.pi

/-- `omega2pi = 2 * pi * omega_0` from `lorentzian_susceptibility::update_P`. -/
def omega2pi (L : LorentzParams) : ℝ := 2 * Real.pi * L.omega_0

/-- `omega0dtsqr = omega2pi * omega2pi * dt * dt`. -/
def omega0dtsqr (L : LorentzParams) (dt : ℝ) : ℝ :=
  omega2pi L * omega2pi L * dt * dt

/-- `gamma1inv = 1 / (1 + g2pi * dt / 2)`. -/
def gamma1inv (L : LorentzParams) (dt : ℝ) : ℝ := 1 / (1 + g2pi L * dt / 2)

/-- `gamma1 = 1 - g2pi * dt / 2`. -/
def gamma1 (L : LorentzParams) (dt : ℝ) : ℝ := 1 - g2pi L * dt / 2

/-- `omega0dtsqr_denom = no_omega_0_denominator ? 0 : omega0dtsqr`. -/
def omega0dtsqr_denom (L : LorentzParams) (dt : ℝ) : ℝ :=
  if L.no_omega_0_denominator then 0 else omega0dtsqr L dt

/-- The `OFFDIAG(u, g, sx, s)` stable-average macro:
`0.25 * ((g[i] + g[i-sx]) * u[i] + (g[i+s] + g[(i+s)-sx]) * u[i+s])`.
Grid arrays are modelled as functions `ℤ → ℝ`, strides as integers. -/
def offdiag (u g : ℤ → ℝ) (sx s : ℤ) (i : ℤ) : ℝ :=
  0.25 * ((g i + g (i - sx)) * u i + (g (i + s) + g (i + s - sx)) * u (i + s))

/-- One off-diagonal coupling slot of `update_P`: the sigma array
`sigma[c][d1]`, the driving field `W[c1][cmp]`, and the stride `is1`.
In the code the slot is "non-NULL" when both `w1` and `sigma[c][d1]` are;
a populated slot is modelled as `some` of this bundle. -/
structure OffDiag where
  sig : ℤ → ℝ
  w : ℤ → ℝ
  stride : ℤ

/-- Per-point result of the isotropic branch of
`lorentzian_susceptibility::update_P` (no `s[i] != 0` guard in the source):
returns the new `(p[i], pp[i])`. -/
def lorentzPointIso (L : LorentzParams) (dt : ℝ) (s w p pp : ℤ → ℝ) (i : ℤ) :
    ℝ × ℝ :=
  (gamma1inv L dt * (p i * (2 - omega0dtsqr_denom L dt) - gamma1 L dt * pp i +
      omega0dtsqr L dt * (s i * w i)), p i)

/-- Per-point result of the 2x2 anisotropic branch, including the
`s[i] != 0` guard (PR #666): a guarded-out point keeps `(p[i], pp[i])`. -/
def lorentzPointAniso2 (L : LorentzParams) (dt : ℝ) (s w : ℤ → ℝ)
    (o1 : OffDiag) (is0 : ℤ) (p pp : ℤ → ℝ) (i : ℤ) : ℝ × ℝ :=
  if s i ≠ 0 then
    (gamma1inv L dt * (p i * (2 - omega0dtsqr_denom L dt) - gamma1 L dt * pp i +
        omega0dtsqr L dt * (s i * w i + offdiag o1.sig o1.w o1.stride is0 i)),
      p i)
  else (p i, pp i)

/-- Per-point result of the 3x3 anisotropic branch, including the
`s[i] != 0` guard. -/
def lorentzPointAniso3 (L : LorentzParams) (dt : ℝ) (s w : ℤ → ℝ)
    (o1 o2 : OffDiag) (is0 : ℤ) (p pp : ℤ → ℝ) (i : ℤ) : ℝ × ℝ :=
  if s i ≠ 0 then
    (gamma1inv L dt * (p i * (2 - omega0dtsqr_denom L dt) - gamma1 L dt * pp i +
        omega0dtsqr L dt * (s i * w i + offdiag o1.sig o1.w o1.stride is0 i +
          offdiag o2.sig o2.w o2.stride is0 i)),
      p i)
  else (p i, pp i)

/-- Per-point dispatch of `lorentzian_susceptibility::update_P`: the `SWAP`
canonicalization (`if (s2 && !s1)` swap slots 1 and 2) followed by the branch
selection `if (s1 && s2) ... else if (s1) ... else ...`. -/
def lorentzPointUpdate (L : LorentzParams) (dt : ℝ) (s w : ℤ → ℝ)
    (od1 od2 : Option OffDiag) (is0 : ℤ) (p pp : ℤ → ℝ) (i : ℤ) : ℝ × ℝ :=
  let pr := if od2.isSome && !od1.isSome then (od2, od1) else (od1, od2)
  match pr.1, pr.2 with
  | some o1, some o2 => lorentzPointAniso3 L dt s w o1 o2 is0 p pp i
  | some o1, none => lorentzPointAniso2 L dt s w o1 is0 p pp i
  | _, _ => lorentzPointIso L dt s w p pp i

/-- Parameters of a `gyrotropic_susceptibility` object.  `tensor` is the
`gyro_tensor` member filled in by the constructor; `no_omega_0_denominator`
is hard-wired to `false` by the constructor. -/
structure GyroParams where
  omega_0 : ℝ
  gamma : ℝ
  alpha : ℝ
  tensor : Fin 3 → Fin 3 → ℝ

/-- `ua = 1 - 0.5 * g2pi * dt` from `gyrotropic_susceptibility::update_P`. -/
def gyroUA (G : GyroParams) (dt : ℝ) : ℝ := 1 - 0.5 * (G.gamma * 2 * Real.pi) * dt

/-- `va = alpha2pi - 0.5 * omega2pi * dt`. -/
def gyroVA (G : GyroParams) (dt : ℝ) : ℝ :=
  2 * Real.pi * G.alpha - 0.5 * (2 * Real.pi * G.omega_0) * dt

/-- `ub = 1 + 0.5 * g2pi * dt`. -/
def gyroUB (G : GyroParams) (dt : ℝ) : ℝ := 1 + 0.5 * (G.gamma * 2 * Real.pi) * dt

/-- `vb = alpha2pi + 0.5 * omega2pi * dt`. -/
def gyroVB (G : GyroParams) (dt : ℝ) : ℝ :=
  2 * Real.pi * G.alpha + 0.5 * (2 * Real.pi * G.omega_0) * dt

/-- The closed-form 3x3 inverse built in `gyrotropic_susceptibility::update_P`
(lines `inv[X][X] = invdet * (ub*ub + gx*gx)` etc.), with
`invdet = 1.0 / ub / (ub*ub + gx*gx + gy*gy + gz*gz)`. -/
def gyroInvMat (ub gx gy gz : ℝ) : Fin 3 → Fin 3 → ℝ := fun i j =>
  let invdet := 1 / ub / (ub * ub + gx * gx + gy * gy + gz * gz)
  if i = 0 then
    if j = 0 then invdet * (ub * ub + gx * gx)
    else if j = 1 then invdet * (gx * gy - ub * gz)
    else invdet * (gx * gz + ub * gy)
  else if i = 1 then
    if j = 0 then invdet * (gy * gx + ub * gz)
    else if j = 1 then invdet * (ub * ub + gy * gy)
    else invdet * (gy * gz - ub * gx)
  else
    if j = 0 then invdet * (gz * gx - ub * gy)
    else if j = 1 then invdet * (gz * gy + ub * gx)
    else invdet * (ub * ub + gz * gz)

/-- First pass of `gyrotropic_susceptibility::update_P` at one grid point, on a
Cartesian grid where `cycle_direction` is cyclic on `{X, Y, Z} = Fin 3`.
`wp d` / `pa d` flag whether `W[c][cmp]` / `d->P[c][cmp]` are non-null for the
component of direction `d`; `sig d` is that component's own-direction sigma
value at the point.  The pass overwrites `P_prev` as scratch:
`pp[i] = ua*p[i] (+ va*T[d0][dk]*pk[i]) (+ 2*pi*dt*T[d0][dk]*sk[i]*wk[i])`,
and an inactive component keeps its old `P_prev`. -/
def gyroPass1 (G : GyroParams) (dt : ℝ) (wp pa : Fin 3 → Bool)
    (sig w P Pprev : Fin 3 → ℝ) : Fin 3 → ℝ := fun d0 =>
  if pa d0 && wp d0 then
    gyroUA G dt * P d0
    + (if pa (d0 + 1) then gyroVA G dt * G.tensor d0 (d0 + 1) * P (d0 + 1) else 0)
    + (if pa (d0 + 2) then gyroVA G dt * G.tensor d0 (d0 + 2) * P (d0 + 2) else 0)
    + (if wp (d0 + 1) then
        2 * Real.pi * dt * G.tensor d0 (d0 + 1) * sig (d0 + 1) * w (d0 + 1) else 0)
    + (if wp (d0 + 2) then
        2 * Real.pi * dt * G.tensor d0 (d0 + 2) * sig (d0 + 2) * w (d0 + 2) else 0)
  else Pprev d0

/-- Second pass of `gyrotropic_susceptibility::update_P` at one grid point:
applies the closed-form inverse to the scratch values `Pmid` produced by pass
one.  `sp d` flags whether the component's own-direction sigma array is
non-null (`sigma[c][d0]` in the outer `if (W[c][cmp] && sigma[c][d0])`); an
inactive component keeps its old `P`. -/
def gyroPass2 (G : GyroParams) (dt : ℝ) (wp pa sp : Fin 3 → Bool)
    (P Pmid : Fin 3 → ℝ) : Fin 3 → ℝ :=
  let gx := gyroVB G dt * G.tensor 1 2
  let gy := gyroVB G dt * G.tensor 2 0
  let gz := gyroVB G dt * G.tensor 0 1
  let inv := gyroInvMat (gyroUB G dt) gx gy gz
  fun d0 =>
    if pa d0 && (wp d0 && sp d0) then
      inv d0 d0 * Pmid d0
      + (if wp (d0 + 1) && pa (d0 + 1) then inv d0 (d0 + 1) * Pmid (d0 + 1) else 0)
      + (if wp (d0 + 2) && pa (d0 + 2) then inv d0 (d0 + 2) * Pmid (d0 + 2) else 0)
    else P d0

/-- One step of `gyrotropic_susceptibility::update_P` at one grid point:
pass one over every component, then pass two; returns the new
`(P, P_prev)` triples.  `P_prev` ends the step holding the pass-one scratch. -/
def gyroUpdatePoint (G : GyroParams) (dt : ℝ) (wp pa sp : Fin 3 → Bool)
    (sig w P Pprev : Fin 3 → ℝ) : (Fin 3 → ℝ) × (Fin 3 → ℝ) :=
  let mid := gyroPass1 G dt wp pa sig w P Pprev
  (gyroPass2 G dt wp pa sp P mid, mid)

/-- 3x3 matrix product over plain `Fin 3`-indexed functions. -/
def mat3Mul (A B : Fin 3 → Fin 3 → ℝ) : Fin 3 → Fin 3 → ℝ := fun i j =>
  A i 0 * B 0 j + A i 1 * B 1 j + A i 2 * B 2 j

/-- 3x3 identity matrix over plain `Fin 3`-indexed functions. -/
def idMat3 : Fin 3 → Fin 3 → ℝ := fun i j => if i = j then 1 else 0

/-- The skew-symmetric matrix whose independent components are `gx, gy, gz`,
laid out exactly like the constructor's `gyro_tensor` scaled by `vb`:
`G[X][Y] = gz`, `G[Y][Z] = gx`, `G[Z][X] = gy`, antisymmetric, zero
diagonal. -/
def skewG (gx gy gz : ℝ) : Fin 3 → Fin 3 → ℝ := fun i j =>
  if i = 0 ∧ j = 1 then gz
  else if i = 1 ∧ j = 0 then -gz
  else if i = 1 ∧ j = 2 then gx
  else if i = 2 ∧ j = 1 then -gx
  else if i = 2 ∧ j = 0 then gy
  else if i = 0 ∧ j = 2 then -gy
  else 0

/-- The implicit system matrix as the claim/spec words it:
`ub*I - G` with `G` the vb-scaled gyration tensor. -/
def claimedSystemMatrix (ub gx gy gz : ℝ) : Fin 3 → Fin 3 → ℝ := fun i j =>
  ub * idMat3 i j - skewG gx gy gz i j

/-- The system matrix the code's closed form actually inverts:
`ub*I + G` with `G` the vb-scaled gyration tensor (equivalently `ub*I - G`
for the opposite orientation of the skew components). -/
def actualSystemMatrix (ub gx gy gz : ℝ) : Fin 3 → Fin 3 → ℝ := fun i j =>
  ub * idMat3 i j + skewG gx gy gz i j

/-- The noise amplitude of `noisy_lorentzian_susceptibility::update_P`:
`amp = w2pi * noise_amp * sqrt(g2pi) * dt * dt / (1 + g2pi * dt / 2)` with
`w2pi = omega_0 * 2 * pi` and `g2pi = gamma * 2 * pi`. -/
def noiseAmpCoef (L : LorentzParams) (noise_amp dt : ℝ) : ℝ :=
  (L.omega_0 * 2 * Real.pi) * noise_amp * Real.sqrt (L.gamma * 2 * Real.pi)
    * dt * dt / (1 + (L.gamma * 2 * Real.pi) * dt / 2)

/-- Per-point result of `noisy_lorentzian_susceptibility::update_P`: the
deterministic Lorentzian step followed by `p[i] += gaussian_random(0,
amp * sqrt(s[i]))`.  Modelled from the spec: `gaussian_random` (random.cpp is
not under src/) draws a normal value of mean 0 and the given standard
deviation, modelled as that standard deviation times a unit normal draw
`grand i`. -/
def noisyLorentzPointUpdate (L : LorentzParams) (noise_amp dt : ℝ)
    (s w : ℤ → ℝ) (od1 od2 : Option OffDiag) (is0 : ℤ) (p pp : ℤ → ℝ)
    (grand : ℤ → ℝ) (i : ℤ) : ℝ × ℝ :=
  let det := lorentzPointUpdate L dt s w od1 od2 is0 p pp i
  (det.1 + noiseAmpCoef L noise_amp dt * Real.sqrt (s i) * grand i, det.2)

/-- Cast of a C `bool` to `double`, as in `(double)no_omega_0_denominator`. -/
def boolFlag (b : Bool) : ℝ := if b then 1 else 0

/-- The record written by `lorentzian_susceptibility::dump_params` and the
advanced stream offset (`*start += num_params` with `num_params = 5`). -/
def lorentzDump (idv omega_0 gamma : ℝ) (no_denom : Bool) (start : ℕ) :
    List ℝ × ℕ :=
  ([4, idv, omega_0, gamma, boolFlag no_denom], start + 5)

/-- The record written by `noisy_lorentzian_susceptibility::dump_params` and
the advanced stream offset (`num_params = 6`). -/
def noisyLorentzDump (idv noise_amp omega_0 gamma : ℝ) (no_denom : Bool)
    (start : ℕ) : List ℝ × ℕ :=
  ([5, idv, noise_amp, omega_0, gamma, boolFlag no_denom], start + 6)

/-- Euclidean length of a 3-vector, as `abs(vec)` on a Cartesian `meep::vec`.
Modelled from the spec: `meep.hpp` vector helpers are not under src/. -/
def vecNorm (b : Fin 3 → ℝ) : ℝ := Real.sqrt (b 0 * b 0 + b 1 * b 1 + b 2 * b 2)

/-- The `gyro_tensor` filled by the `gyrotropic_susceptibility` constructor:
`bn = bias / fmax(abs(bias), 1e-10)`, then `T[X][Y] = bn.z`, `T[Y][Z] = bn.x`,
`T[Z][X] = bn.y`, antisymmetric, zero elsewhere. -/
def gyroTensorOf (b : Fin 3 → ℝ) : Fin 3 → Fin 3 → ℝ :=
  let m := max (vecNorm b) (1e-10)
  fun i j =>
    if i = 0 ∧ j = 1 then b 2 / m
    else if i = 1 ∧ j = 0 then -(b 2 / m)
    else if i = 1 ∧ j = 2 then b 0 / m
    else if i = 2 ∧ j = 1 then -(b 0 / m)
    else if i = 2 ∧ j = 0 then b 1 / m
    else if i = 0 ∧ j = 2 then -(b 1 / m)
    else 0

/-- The record written by `gyrotropic_susceptibility::dump_params` for a term
constructed with bias vector `b` (`bias[] = {T[Y][Z], T[Z][X], T[X][Y]}`
recovered from the stored tensor) and the advanced offset (`num_params = 9`).
The constructor forces `no_omega_0_denominator = false`, so the flag slot is
`boolFlag false`. -/
def gyroDump (idv : ℝ) (b : Fin 3 → ℝ) (alpha omega_0 gamma : ℝ) (start : ℕ) :
    List ℝ × ℕ :=
  let T := gyroTensorOf b
  ([8, idv, T 1 2, T 2 0, T 0 1, alpha, omega_0, gamma, boolFlag false],
    start + 9)

end

/-- Modelled from the spec: the coupling directions iterated by
`FOR_DIRECTIONS` (the `meep.hpp` enums are not under src/) — three Cartesian
and two cylindrical directions. -/
inductive Direction where
  | X
  | Y
  | Z
  | R
  | P
  deriving DecidableEq

/-- Modelled from the spec: the field families a component can belong to —
electric, magnetic, and the paired displacement/flux families used by
`subtract_P`. -/
inductive FType where
  | E
  | H
  | D
  | B
  deriving DecidableEq

/-- Modelled from the spec: field-component addressing — a component is a
field family together with a direction (`Ex`, `Hy`, `Dz`, ...). -/
structure Comp where
  ft : FType
  dir : Direction
  deriving DecidableEq

/-- `is_electric(c)`: whether the component belongs to the electric family. -/
def is_electric (c : Comp) : Bool := c.ft == FType.E

/-- `is_magnetic(c)`: whether the component belongs to the magnetic family. -/
def is_magnetic (c : Comp) : Bool := c.ft == FType.H

/-- `direction_component(c, d)`: the component of `c`'s field family in
direction `d`. -/
def direction_component (c : Comp) (d : Direction) : Comp := ⟨c.ft, d⟩

/-- `component_direction(c)`: the direction of component `c`. -/
def component_direction (c : Comp) : Direction := c.dir

/-- `field_type_component(ft2, ec)`: the component of family `ft2` paired
with `ec` (same direction). -/
def field_type_component (ft2 : FType) (ec : Comp) : Comp := ⟨ft2, ec.dir⟩

/-- The directions visited by `FOR_DIRECTIONS`. -/
def allDirections : List Direction :=
  [Direction.X, Direction.Y, Direction.Z, Direction.R, Direction.P]

/-- `susceptibility::needs_P`: `false` for non-electric non-magnetic
components, else `true` iff some direction `d` has a non-trivial
`sigma[c][d]` and a non-null `W[direction_component(c, d)][cmp]`.
`triv` is the `trivial_sigma` table; `W c cmp = true` models a non-null
driving-field array. -/
def needs_P (triv : Comp → Direction → Bool) (W : Comp → Fin 2 → Bool)
    (c : Comp) (cmp : Fin 2) : Bool :=
  if !is_electric c && !is_magnetic c then false
  else allDirections.any fun d => !triv c d && W (direction_component c d) cmp

/-- The components of field family `ft`, as visited by
`FOR_FT_COMPONENTS(ft, ec)`. -/
def ftComponents (ft : FType) : List Comp := allDirections.map fun d => ⟨ft, d⟩

/-- The `(component, copy)` pairs visited by `FOR_FT_COMPONENTS` with the
inner `DOCMP2` loop. -/
def compCopies (ft : FType) : List (Comp × Fin 2) :=
  (ftComponents ft).flatMap fun ec => [(ec, 0), (ec, 1)]

noncomputable section

/-- The `lorentzian_data` blob: local point count and, per
`(component, copy)`, the optional `P` and `P_prev` arrays (`none` models an
unallocated component). -/
structure LData where
  ntot : ℕ
  P : Comp → Fin 2 → Option (ℕ → ℝ)
  Pprev : Comp → Fin 2 → Option (ℕ → ℝ)

/-- The caller-supplied `f_minus_p` table: per `(component, copy)` an
optional field array. -/
abbrev FMP : Type := Comp → Fin 2 → Option (ℕ → ℝ)

/-- One iteration of the `subtract_P` loop body for `(ec, cmp) = pr`: if both
`d->P[ec][cmp]` and `f_minus_p[dc][cmp]` are non-null, subtract the
polarization pointwise over the `ntot` points, else leave the table
unchanged. -/
def subtractStep (d : LData) (ft2 : FType) (acc : FMP) (pr : Comp × Fin 2) :
    FMP :=
  match d.P pr.1 pr.2 with
  | none => acc
  | some p =>
    let dc := field_type_component ft2 pr.1
    match acc dc pr.2 with
    | none => acc
    | some arr =>
      fun c' m' =>
        if c' = dc ∧ m' = pr.2 then
          some (fun j => if j < d.ntot then arr j - p j else arr j)
        else acc c' m'

/-- `lorentzian_susceptibility::subtract_P`: dereferences the internal-state
blob unconditionally (`none` input models the null-pointer fault as a `none`
result), maps the field type to its paired flux type
(`ft == E_stuff ? D_stuff : B_stuff`), and subtracts every populated
polarization component in place. -/
def subtractP (data : Option LData) (ft : FType) (fmp : FMP) : Option FMP :=
  match data with
  | none => none
  | some d =>
      some ((compCopies ft).foldl
        (subtractStep d (if ft = FType.E then FType.D else FType.B)) fmp)

/-- `lorentzian_susceptibility::num_cinternal_notowned_needed`: dereferences
the blob unconditionally (`none` models the fault) and returns
`d->P[c][0] ? 1 : 0`. -/
def num_cinternal_notowned_needed (c : Comp) (data : Option LData) :
    Option ℕ :=
  match data with
  | none => none
  | some d => some (if (d.P c 0).isSome then 1 else 0)

/-- `lorentzian_susceptibility::cinternal_notowned_ptr`: guarded by
`if (!d || !d->P[c][cmp]) return NULL`, so it never faults — the outer layer
is always `some`; the inner `none` models a NULL return, and a populated
result is the pointer `d->P[c][cmp] + n`. -/
def cinternal_notowned_ptr (c : Comp) (cmp : Fin 2) (n : ℕ)
    (data : Option LData) : Option (Option (ℕ → ℝ)) :=
  some (match data with
    | none => none
    | some d =>
      match d.P c cmp with
      | none => none
      | some p => some (fun k => p (n + k)))

/-- One component's slice of `lorentzian_susceptibility::update_P`: the outer
guards `if (d->P[c][cmp])` (`palloc`) and `if (w && s)` (lines 190-192),
the construction of the off-diagonal slots (`s1 = w1 ? sigma[c][d1] : NULL`,
likewise for slot 2), and the per-point loop over the owned region.  Returns
the whole new `(P, P_prev)` arrays of that component. -/
def lorentzUpdateComponent (L : LorentzParams) (dt : ℝ) (owned : ℤ → Bool)
    (palloc : Bool) (w s w1 sg1 : Option (ℤ → ℝ)) (is1 : ℤ)
    (w2 sg2 : Option (ℤ → ℝ)) (is2 is0 : ℤ) (p pp : ℤ → ℝ) :
    (ℤ → ℝ) × (ℤ → ℝ) :=
  if palloc then
    match w, s with
    | some wa, some sa =>
      let od1 : Option OffDiag :=
        match w1, sg1 with
        | some wa1, some sa1 => some ⟨sa1, wa1, is1⟩
        | _, _ => none
      let od2 : Option OffDiag :=
        match w2, sg2 with
        | some wa2, some sa2 => some ⟨sa2, wa2, is2⟩
        | _, _ => none
      (fun i => if owned i then
          (lorentzPointUpdate L dt sa wa od1 od2 is0 p pp i).1 else p i,
        fun i => if owned i then
          (lorentzPointUpdate L dt sa wa od1 od2 is0 p pp i).2 else pp i)
    | _, _ => (p, pp)
  else (p, pp)

end

/-- Claim C4 (amended): the `s[i] != 0` guard lives on the 2-term and 3-term
anisotropic branches, where it skips the point entirely (both `p[i]` and
`pp[i]` unchanged, no register swap); the isotropic branch has no guard, so a
zero-sigma point is still advanced by the zero-forcing damped recurrence, with
`pp[i]` taking the old `p[i]`. -/
theorem c4_guard_on_anisotropic_paths (L : LorentzParams) (dt : ℝ)
    (s w : ℤ → ℝ) (o1 o2 : OffDiag) (is0 : ℤ) (p pp : ℤ → ℝ) (i : ℤ)
    (hs : s i = 0) :
    lorentzPointUpdate L dt s w (some o1) (some o2) is0 p pp i = (p i, pp i)
    ∧ lorentzPointUpdate L dt s w (some o1) none is0 p pp i = (p i, pp i)
    ∧ lorentzPointUpdate L dt s w none (some o2) is0 p pp i = (p i, pp i)
    ∧ lorentzPointUpdate L dt s w none none is0 p pp i
        = (gamma1inv L dt *
            (p i * (2 - omega0dtsqr_denom L dt) - gamma1 L dt * pp i), p i) := by
  refine ⟨?_, ?_, ?_, ?_⟩
  · simp [lorentzPointUpdate, lorentzPointAniso3, hs]
  · simp [lorentzPointUpdate, lorentzPointAniso2, hs]
  · simp [lorentzPointUpdate, lorentzPointAniso2, hs]
  · simp [lorentzPointUpdate, lorentzPointIso, hs]

/-- Witness for `c4_guard_on_anisotropic_paths` at concrete inputs: a 2-term
anisotropic point with zero local sigma is left exactly as it was. -/
theorem c4_guard_on_anisotropic_paths_witness :
    lorentzPointUpdate ⟨1, 1, false⟩ 1 (fun _ => 0) (fun _ => 1)
        (some ⟨fun _ => 1, fun _ => 1, 1⟩) none 1 (fun _ => 3) (fun _ => 4) 0
      = (3, 4) :=
  (c4_guard_on_anisotropic_paths ⟨1, 1, false⟩ 1 (fun _ => 0) (fun _ => 1)
      ⟨fun _ => 1, fun _ => 1, 1⟩ ⟨fun _ => 1, fun _ => 1, 1⟩ 1
      (fun _ => 3) (fun _ => 4) 0 rfl).2.1

/-- Claim C4, counterexample: on the isotropic path with local sigma zero, one
step does not merely swap the prev/cur registers (nor is the point skipped by
a guard).  With omega_0 = 0, gamma = 0, dt = 1, `p = 1`, `pp = 0` the step
produces `(2, 1)`, whereas the claimed swap would give `(0, 1)` and a
guard-skip would give `(1, 0)`. -/
theorem c4_isotropic_guard_counterexample :
    lorentzPointUpdate ⟨0, 0, false⟩ 1 (fun _ => 0) (fun _ => 1) none none 1
        (fun _ => 1) (fun _ => 0) 0 ≠ ((0 : ℝ), (1 : ℝ))
    ∧ lorentzPointUpdate ⟨0, 0, false⟩ 1 (fun _ => 0) (fun _ => 1) none none 1
        (fun _ => 1) (fun _ => 0) 0 ≠ ((1 : ℝ), (0 : ℝ)) := by
  have hval : lorentzPointUpdate ⟨0, 0, false⟩ 1 (fun _ => 0) (fun _ => 1)
      none none 1 (fun _ => 1) (fun _ => 0) 0 = ((2 : ℝ), (1 : ℝ)) := by
    simp [lorentzPointUpdate, lorentzPointIso, gamma1inv, gamma1,
      omega0dtsqr_denom, omega0dtsqr, omega2pi, g2pi]
  rw [hval]
  constructor
  · intro h
    have := congrArg Prod.fst h
    norm_num at this
  · intro h
    have := congrArg Prod.fst h
    norm_num at this

/-- Claim C7: branch selection of `lorentzian_susceptibility::update_P`.  With
no off-diagonal slot populated the isotropic branch runs; with exactly one
populated (in either position — the SWAP canonicalization makes the result
independent of which) the 2-term branch runs on that slot's data; with both
populated the 3-term branch runs. -/
theorem c7_branch_selection_and_swap_invariance (L : LorentzParams) (dt : ℝ)
    (s w : ℤ → ℝ) (o o2 : OffDiag) (is0 : ℤ) (p pp : ℤ → ℝ) (i : ℤ) :
    lorentzPointUpdate L dt s w (some o) none is0 p pp i
        = lorentzPointUpdate L dt s w none (some o) is0 p pp i
    ∧ lorentzPointUpdate L dt s w none none is0 p pp i
        = lorentzPointIso L dt s w p pp i
    ∧ lorentzPointUpdate L dt s w (some o) none is0 p pp i
        = lorentzPointAniso2 L dt s w o is0 p pp i
    ∧ lorentzPointUpdate L dt s w none (some o) is0 p pp i
        = lorentzPointAniso2 L dt s w o is0 p pp i
    ∧ lorentzPointUpdate L dt s w (some o) (some o2) is0 p pp i
        = lorentzPointAniso3 L dt s w o o2 is0 p pp i := by
  refine ⟨?_, ?_, ?_, ?_, ?_⟩ <;> simp [lorentzPointUpdate]

/-- Claim C1: at omega_0 = 1, gamma = 0.1, dt = 0.01 the isotropic Lorentzian
per-point update realises the closed-form leapfrog recurrence
`P_new = (1/g) * (P_cur*(2 - w0^2 dt^2) - g' * P_prev + w0^2 dt^2 * sigma*W)`
with `g = 1 + 0.1*pi*0.01`, `g' = 1 - 0.1*pi*0.01`, `w0 = 2*pi`; in particular,
from `P_cur = P_prev = 0`, `sigma = 1`, `W = 1`, one step yields exactly
`(1/(1 + 0.1*pi*0.01)) * ((2*pi)^2 * 0.01^2)`. -/
theorem c1_lorentzian_concrete_step :
    (∀ pc pv sv wv : ℝ,
      (lorentzPointUpdate ⟨1, 0.1, false⟩ 0.01 (fun _ => sv) (fun _ => wv)
          none none 1 (fun _ => pc) (fun _ => pv) 0).1
        = (1 / (1 + 0.1 * Real.pi * 0.01)) *
            (pc * (2 - (2 * Real.pi) ^ 2 * 0.01 ^ 2)
              - (1 - 0.1 * Real.pi * 0.01) * pv
              + (2 * Real.pi) ^ 2 * 0.01 ^ 2 * (sv * wv)))
    ∧ (lorentzPointUpdate ⟨1, 0.1, false⟩ 0.01 (fun _ => 1) (fun _ => 1)
          none none 1 (fun _ => 0) (fun _ => 0) 0).1
        = (1 / (1 + 0.1 * Real.pi * 0.01)) * ((2 * Real.pi) ^ 2 * 0.01 ^ 2) := by
  have key : ∀ pc pv sv wv : ℝ,
      (lorentzPointUpdate ⟨1, 0.1, false⟩ 0.01 (fun _ => sv) (fun _ => wv)
          none none 1 (fun _ => pc) (fun _ => pv) 0).1
        = (1 / (1 + 0.1 * Real.pi * 0.01)) *
            (pc * (2 - (2 * Real.pi) ^ 2 * 0.01 ^ 2)
              - (1 - 0.1 * Real.pi * 0.01) * pv
              + (2 * Real.pi) ^ 2 * 0.01 ^ 2 * (sv * wv)) := by
    intro pc pv sv wv
    have harg : (1 : ℝ) + g2pi ⟨1, 0.1, false⟩ * 0.01 / 2
        = 1 + 0.1 * Real.pi * 0.01 := by
      simp only [g2pi]; ring
    simp only [lorentzPointUpdate, lorentzPointIso, gamma1inv, gamma1,
      omega0dtsqr_denom, omega0dtsqr, omega2pi, g2pi, Option.isSome_none,
      Bool.and_false, Bool.false_and, if_neg, Bool.not_false]
    norm_num
    ring_nf
  refine ⟨key, ?_⟩
  have h := key 0 0 1 1
  simpa using h

/-- Claim C2, counterexample: the code's closed-form matrix is not the inverse
of `ub*I - G` (with `G` the vb-scaled gyration tensor, as in the spec's
system `I*(1+gamma*pi*dt) - tensor*(alpha+omega*pi*dt)`): at
`ub = 1, gx = 1, gy = gz = 0` the product has `0`, not `1`, in entry
`(Y, Y)`. -/
theorem c2_claimed_inverse_counterexample :
    mat3Mul (gyroInvMat 1 1 0 0) (claimedSystemMatrix 1 1 0 0) ≠ idMat3 := by
  intro h
  have h11 := congrFun (congrFun h 1) 1
  simp [mat3Mul, gyroInvMat, claimedSystemMatrix, skewG, idMat3] at h11

/-- Claim C2 (amended): for every `ub ≠ 0` and all `gx, gy, gz`, the
closed-form matrix built in `gyrotropic_susceptibility::update_P` is the exact
inverse of `ub*I + G` (the sign of the skew part being opposite to the
claimed `ub*I - G`): multiplying it by that matrix yields the identity in
exact real arithmetic. -/
theorem c2_inverse_correct_sign (ub gx gy gz : ℝ) (hub : ub ≠ 0) :
    mat3Mul (gyroInvMat ub gx gy gz) (actualSystemMatrix ub gx gy gz)
      = idMat3 := by
  have hq : (0 : ℝ) < ub * ub + gx * gx + gy * gy + gz * gz := by
    have h1 : 0 < ub * ub := mul_self_pos.mpr hub
    nlinarith [mul_self_nonneg gx, mul_self_nonneg gy, mul_self_nonneg gz]
  funext i j
  fin_cases i <;> fin_cases j <;>
    · simp [mat3Mul, gyroInvMat, actualSystemMatrix, skewG, idMat3]
      try field_simp
      try ring

/-- Witness for `c2_inverse_correct_sign` at `ub = 1, gx = 2, gy = 3,
gz = 4`. -/
theorem c2_inverse_correct_sign_witness :
    mat3Mul (gyroInvMat 1 2 3 4) (actualSystemMatrix 1 2 3 4) = idMat3 :=
  c2_inverse_correct_sign 1 2 3 4 (by norm_num)

/-- Claim C3, counterexample: with a zero gyration tensor, one gyrotropic step
from `P = P_prev = 0` with `sigma = 1`, `W = 1`, `omega_0 = 1`, `gamma = 0`,
`alpha = 0`, `dt = 1` leaves `P = 0`, while the plain Lorentzian step with the
same `omega_0`, `gamma`, `dt`, sigma and driving field produces
`(2*pi)^2 != 0`: the zero-bias gyrotropic update is not the Lorentzian
recurrence. -/
theorem c3_zero_bias_counterexample :
    (gyroUpdatePoint ⟨1, 0, 0, fun _ _ => 0⟩ 1 (fun _ => true) (fun _ => true)
        (fun _ => true) (fun _ => 1) (fun _ => 1) (fun _ => 0) (fun _ => 0)).1 0
      ≠ (lorentzPointUpdate ⟨1, 0, false⟩ 1 (fun _ => 1) (fun _ => 1) none none
          1 (fun _ => 0) (fun _ => 0) 0).1 := by
  have hg : (gyroUpdatePoint ⟨1, 0, 0, fun _ _ => 0⟩ 1 (fun _ => true)
      (fun _ => true) (fun _ => true) (fun _ => 1) (fun _ => 1) (fun _ => 0)
      (fun _ => 0)).1 0 = 0 := by
    simp [gyroUpdatePoint, gyroPass1, gyroPass2, gyroInvMat, gyroUA, gyroUB,
      gyroVA, gyroVB]
  have hl : (lorentzPointUpdate ⟨1, 0, false⟩ 1 (fun _ => 1) (fun _ => 1)
      none none 1 (fun _ => 0) (fun _ => 0) 0).1
      = (2 * Real.pi) * (2 * Real.pi) := by
    simp [lorentzPointUpdate, lorentzPointIso, gamma1inv, gamma1,
      omega0dtsqr_denom, omega0dtsqr, omega2pi, g2pi]
  rw [hg, hl]
  intro h
  have hpi := Real.pi_pos
  nlinarith

/-- Claim C3 (amended): for a zero gyration tensor (zero bias) the gyrotropic
update degenerates to pure damped relaxation — for every active component it
stores `ua * P_cur` in `P_prev` and sets `P_new = ua * P_cur / ub` with
`ua = 1 - gamma*pi*dt`, `ub = 1 + gamma*pi*dt` — independent of `omega_0`,
sigma, the driving field and the old `P_prev`; it does not reduce to the
Lorentzian recurrence. -/
theorem c3_zero_bias_relaxation (G : GyroParams) (dt : ℝ)
    (sig w P Pprev : Fin 3 → ℝ)
    (ht : ∀ i j, G.tensor i j = 0) (hub : gyroUB G dt ≠ 0) (d : Fin 3) :
    (gyroUpdatePoint G dt (fun _ => true) (fun _ => true) (fun _ => true)
        sig w P Pprev).2 d = gyroUA G dt * P d
    ∧ (gyroUpdatePoint G dt (fun _ => true) (fun _ => true) (fun _ => true)
        sig w P Pprev).1 d = gyroUA G dt * P d / gyroUB G dt := by
  constructor
  · simp [gyroUpdatePoint, gyroPass1, ht]
  · fin_cases d <;>
      · simp [gyroUpdatePoint, gyroPass1, gyroPass2, gyroInvMat, ht]
        try field_simp
        try ring

/-- Witness for `c3_zero_bias_relaxation` at `omega_0 = 1`, `gamma = 0`,
`alpha = 0`, `dt = 1`, zero tensor, `P = 5` at component `X`: `P_prev` takes
`1 * 5` and `P` takes `1 * 5 / 1`. -/
theorem c3_zero_bias_relaxation_witness :
    (gyroUpdatePoint ⟨1, 0, 0, fun _ _ => 0⟩ 1 (fun _ => true) (fun _ => true)
        (fun _ => true) (fun _ => 1) (fun _ => 1) (fun _ => 5) (fun _ => 7)).2 0
      = gyroUA ⟨1, 0, 0, fun _ _ => 0⟩ 1 * 5
    ∧ (gyroUpdatePoint ⟨1, 0, 0, fun _ _ => 0⟩ 1 (fun _ => true)
        (fun _ => true) (fun _ => true) (fun _ => 1) (fun _ => 1) (fun _ => 5)
        (fun _ => 7)).1 0
      = gyroUA ⟨1, 0, 0, fun _ _ => 0⟩ 1 * 5 / gyroUB ⟨1, 0, 0, fun _ _ => 0⟩ 1 :=
  c3_zero_bias_relaxation ⟨1, 0, 0, fun _ _ => 0⟩ 1 (fun _ => 1) (fun _ => 1)
    (fun _ => 5) (fun _ => 7) (fun _ _ => rfl)
    (by simp [gyroUB]) 0

/-- Claim C8: the noise amplitude of the noisy Lorentzian update equals
`2*pi*omega_0 * noiseAmp * sqrt(2*pi*gamma) * dt^2 / (1 + pi*gamma*dt)`, and
with `noiseAmp = 0` the noisy per-point update coincides with the plain
Lorentzian one for every unit-normal draw. -/
theorem c8_noise_amplitude_and_zero_noise (L : LorentzParams)
    (noise_amp dt : ℝ) (s w : ℤ → ℝ) (od1 od2 : Option OffDiag) (is0 : ℤ)
    (p pp grand : ℤ → ℝ) (i : ℤ) :
    noiseAmpCoef L noise_amp dt
      = 2 * Real.pi * L.omega_0 * noise_amp * Real.sqrt (2 * Real.pi * L.gamma)
          * dt ^ 2 / (1 + Real.pi * L.gamma * dt)
    ∧ (noise_amp = 0 →
        noisyLorentzPointUpdate L noise_amp dt s w od1 od2 is0 p pp grand i
          = lorentzPointUpdate L dt s w od1 od2 is0 p pp i) := by
  constructor
  · unfold noiseAmpCoef
    rw [show L.gamma * 2 * Real.pi = 2 * Real.pi * L.gamma by ring]
    ring
  · intro h
    subst h
    simp [noisyLorentzPointUpdate, noiseAmpCoef]

/-- Witness for `c8_noise_amplitude_and_zero_noise`: with `noiseAmp = 0` and a
nonzero unit draw, the noisy update at a concrete point equals the plain
one. -/
theorem c8_noise_amplitude_and_zero_noise_witness :
    noisyLorentzPointUpdate ⟨1, 1, false⟩ 0 1 (fun _ => 1) (fun _ => 1) none
        none 1 (fun _ => 0) (fun _ => 0) (fun _ => 37) 0
      = lorentzPointUpdate ⟨1, 1, false⟩ 1 (fun _ => 1) (fun _ => 1) none none
          1 (fun _ => 0) (fun _ => 0) 0 :=
  (c8_noise_amplitude_and_zero_noise ⟨1, 1, false⟩ 0 1 (fun _ => 1)
    (fun _ => 1) none none 1 (fun _ => 0) (fun _ => 0) (fun _ => 37) 0).2 rfl

/-- Claim C9, counterexample: `gyrotropic_susceptibility::dump_params` does
not write the bias components supplied at construction.  For bias `(2, 0, 0)`
the record's `biasX` slot (index 2) holds the normalized value `1`, not
`2`. -/
theorem c9_dump_bias_counterexample :
    ((gyroDump 7 (fun idx : Fin 3 => if idx = 0 then (2 : ℝ) else 0)
        0 1 1 0).1).get? 2 ≠ some 2 := by
  have hnorm : vecNorm (fun idx : Fin 3 => if idx = 0 then (2 : ℝ) else 0)
      = 2 := by
    unfold vecNorm
    norm_num [Fin.ext_iff]
    rw [show (4 : ℝ) = 2 ^ 2 by norm_num,
      Real.sqrt_sq (by norm_num : (0 : ℝ) ≤ 2)]
  simp [gyroDump, gyroTensorOf, hnorm]
  rw [show max (2 : ℝ) 1e-10 = 2 from max_eq_left (by norm_num)]
  norm_num

/-- Claim C9 (amended): each `dump_params` writes its fixed-order record —
`(4, id, omega_0, gamma, flag)` for the Lorentzian term,
`(5, id, noiseAmp, omega_0, gamma, flag)` for the noisy one, and
`(8, id, biasX, biasY, biasZ, alpha, omega_0, gamma, 0)` for the gyrotropic
one, where the bias components are those supplied at construction divided by
`max(|bias|, 1e-10)` (the normalized bias stored in the gyration tensor) — and
advances the stream offset by exactly the record length. -/
theorem c9_dump_records (idv noise_amp omega_0 gamma alpha : ℝ) (nd : Bool)
    (b : Fin 3 → ℝ) (start : ℕ) :
    lorentzDump idv omega_0 gamma nd start
      = ([4, idv, omega_0, gamma, boolFlag nd], start + 5)
    ∧ (lorentzDump idv omega_0 gamma nd start).1.length = 5
    ∧ noisyLorentzDump idv noise_amp omega_0 gamma nd start
      = ([5, idv, noise_amp, omega_0, gamma, boolFlag nd], start + 6)
    ∧ (noisyLorentzDump idv noise_amp omega_0 gamma nd start).1.length = 6
    ∧ gyroDump idv b alpha omega_0 gamma start
      = ([8, idv, b 0 / max (vecNorm b) 1e-10, b 1 / max (vecNorm b) 1e-10,
          b 2 / max (vecNorm b) 1e-10, alpha, omega_0, gamma, 0], start + 9)
    ∧ (gyroDump idv b alpha omega_0 gamma start).1.length = 9 := by
  refine ⟨rfl, rfl, rfl, rfl, ?_, rfl⟩
  simp [gyroDump, gyroTensorOf, boolFlag]

/-- Claim C5: `needs_P(c, cmp, W)` is true iff `c` is electric or magnetic and
some coupling direction `d` has a non-trivial `sigma[c][d]` together with a
non-null `W[direction_component(c, d)][cmp]`; in particular it is false for
every non-electric, non-magnetic component. -/
theorem c5_needs_P_characterization (triv : Comp → Direction → Bool)
    (W : Comp → Fin 2 → Bool) (c : Comp) (cmp : Fin 2) :
    (needs_P triv W c cmp = true ↔
      ((is_electric c = true ∨ is_magnetic c = true) ∧
        ∃ d : Direction, triv c d = false
          ∧ W (direction_component c d) cmp = true))
    ∧ (is_electric c = false → is_magnetic c = false →
        needs_P triv W c cmp = false) := by
  have hmem : ∀ d : Direction, d ∈ allDirections := by
    intro d
    cases d <;> simp [allDirections]
  constructor
  · unfold needs_P
    cases hE : is_electric c <;> cases hM : is_magnetic c <;>
      simp [hE, hM, List.any_eq_true, hmem, Bool.and_eq_true,
        Bool.not_eq_true']
  · intro hE hM
    unfold needs_P
    simp [hE, hM]

/-- Witness for `c5_needs_P_characterization`: a displacement-family component
never needs polarization storage, whatever the sigma table and fields. -/
theorem c5_needs_P_characterization_witness :
    needs_P (fun _ _ => false) (fun _ _ => true) ⟨FType.D, Direction.X⟩ 0
      = false :=
  (c5_needs_P_characterization (fun _ _ => false) (fun _ _ => true)
    ⟨FType.D, Direction.X⟩ 0).2 rfl rfl

/-- Claim C6, counterexample: a null internal-state argument is not treated as
a no-op by `subtract_P` (which would have to return the field table
unchanged) nor by `num_cinternal_notowned_needed` (which would have to return
0): both dereference the state and fault. -/
theorem c6_null_state_counterexample :
    subtractP none FType.E (fun _ _ => none) ≠ some (fun _ _ => none)
    ∧ num_cinternal_notowned_needed ⟨FType.E, Direction.X⟩ none ≠ some 0 := by
  constructor <;> simp [subtractP, num_cinternal_notowned_needed]

/-- Claim C6 (amended): `cinternal_notowned_ptr` treats a null state or an
absent component as a NULL-returning no-op; on a non-null state,
`num_cinternal_notowned_needed` returns 0 for an absent component and
`subtract_P` leaves the field arrays unchanged when the polarization
components are absent; but `subtract_P` and `num_cinternal_notowned_needed`
dereference a null internal-state argument rather than treating it as a
no-op. -/
theorem c6_defensive_behavior :
    (∀ ft fmp, subtractP none ft fmp = none)
    ∧ (∀ c, num_cinternal_notowned_needed c none = none)
    ∧ (∀ c cmp n, cinternal_notowned_ptr c cmp n none = some none)
    ∧ (∀ (d : LData) c cmp n, d.P c cmp = none →
        cinternal_notowned_ptr c cmp n (some d) = some none)
    ∧ (∀ (d : LData) c, d.P c 0 = none →
        num_cinternal_notowned_needed c (some d) = some 0)
    ∧ (∀ (d : LData) ft fmp, (∀ ec cmp, d.P ec cmp = none) →
        subtractP (some d) ft fmp = some fmp) := by
  refine ⟨fun ft fmp => rfl, fun c => rfl, fun c cmp n => rfl, ?_, ?_, ?_⟩
  · intro d c cmp n h
    simp [cinternal_notowned_ptr, h]
  · intro d c h
    simp [num_cinternal_notowned_needed, h]
  · intro d ft fmp h
    have hstep : ∀ (acc : FMP) (pr : Comp × Fin 2),
        subtractStep d (if ft = FType.E then FType.D else FType.B) acc pr
          = acc := by
      intro acc pr
      unfold subtractStep
      rw [h pr.1 pr.2]
    have hfold : ∀ (l : List (Comp × Fin 2)) (acc : FMP),
        l.foldl (subtractStep d (if ft = FType.E then FType.D else FType.B))
          acc = acc := by
      intro l
      induction l with
      | nil => intro acc; rfl
      | cons a t ih =>
        intro acc
        rw [List.foldl_cons, hstep acc a]
        exact ih acc
    simp [subtractP, hfold]

/-- Witness for `c6_defensive_behavior`: on a state blob with no allocated
components, `subtract_P` returns the field table unchanged. -/
theorem c6_defensive_behavior_witness :
    subtractP (some ⟨4, fun _ _ => none, fun _ _ => none⟩) FType.E
        (fun _ _ => none) = some (fun _ _ => none) :=
  c6_defensive_behavior.2.2.2.2.2 ⟨4, fun _ _ => none, fun _ _ => none⟩
    FType.E (fun _ _ => none) (fun _ _ => rfl)

/-- Claim C10: the Lorentzian `update_P` leaves a component's `P` and `P_prev`
arrays entirely unchanged when the driving field `W[c][cmp]` or the diagonal
sigma array `sigma[c][component_direction(c)]` is null, even though
`needs_P` can be true for such a component through an off-diagonal
non-trivial sigma (witnessed here by a component whose diagonal sigma is
trivial while `sigma[c][Y]` is not). -/
theorem c10_update_skips_null_w_or_sigma :
    (∀ (L : LorentzParams) (dt : ℝ) (owned : ℤ → Bool) (palloc : Bool)
        (w s w1 sg1 : Option (ℤ → ℝ)) (is1 : ℤ) (w2 sg2 : Option (ℤ → ℝ))
        (is2 is0 : ℤ) (p pp : ℤ → ℝ),
      w = none ∨ s = none →
      lorentzUpdateComponent L dt owned palloc w s w1 sg1 is1 w2 sg2 is2 is0
          p pp = (p, pp))
    ∧ needs_P
        (fun c d =>
          if c = (⟨FType.E, Direction.X⟩ : Comp) ∧ d = Direction.Y then false
          else true)
        (fun _ _ => true) ⟨FType.E, Direction.X⟩ 0 = true
    ∧ (fun c d =>
          if c = (⟨FType.E, Direction.X⟩ : Comp) ∧ d = Direction.Y then false
          else true) ⟨FType.E, Direction.X⟩
        (component_direction ⟨FType.E, Direction.X⟩) = true := by
  refine ⟨?_, by decide, by decide⟩
  intro L dt owned palloc w s w1 sg1 is1 w2 sg2 is2 is0 p pp h
  rcases h with rfl | rfl
  · cases s <;> cases palloc <;> simp [lorentzUpdateComponent]
  · cases w <;> cases palloc <;> simp [lorentzUpdateComponent]

/-- Witness for `c10_update_skips_null_w_or_sigma`: with a null driving field
the component update returns the polarization arrays untouched. -/
theorem c10_update_skips_null_w_or_sigma_witness :
    lorentzUpdateComponent ⟨1, 1, false⟩ 1 (fun _ => true) true none
        (some fun _ => 1) none none 1 none none 1 1 (fun _ => 5) (fun _ => 6)
      = (fun _ => (5 : ℝ), fun _ => (6 : ℝ)) :=
  c10_update_skips_null_w_or_sigma.1 ⟨1, 1, false⟩ 1 (fun _ => true) true none
    (some fun _ => 1) none none 1 none none 1 1 (fun _ => 5) (fun _ => 6)
    (Or.inl rfl)
